import Mathlib

/-!
# Verification of the manage-salary-bot record pipeline

Shallow embedding of `src/index.ts`: the canonical record schema, the three
transaction normalizers (`parseOrderToRecord`, `parsePayTransactionToRecord`,
`parseDepositToRecord`), the deduplication filter (`sendRecords` /
`getExistingExternalIds`) and the watermark update of `main` /
`handleIncomingActions`.

Numeric amounts flow through JavaScript doubles:
`Math.round(parseFloat(s) * 100).toString()`.  We model this exactly with
unreduced fractions (`Frac`) over `ℤ`/`ℕ`: `parseFloat` on decimal numeral
strings is an exact decimal parse followed by rounding to the nearest IEEE-754
binary64 value (ties to even), `*` rounds the exact product to the nearest
binary64 value again, and `Math.round` is `⌊x + 1/2⌋` on the exact value of
the double (ECMAScript ties toward +∞).  Unparsable strings are `none`
(JavaScript `NaN`); `Math.round(NaN).toString()` is `"NaN"`.  The modeled
`parseFloat` grammar is an optional `-` sign, digits, and an optional `.`
fraction with trailing garbage ignored, which covers every amount shape the
upstream exchange API produces; exponents, leading whitespace, a leading `+`,
`Infinity` and hex literals are not modeled.  Overflow to `Infinity` and
subnormal underflow are outside the modeled (finite, normal) range of
financial amounts.
-/

namespace ManageSalaryBot

/-- An unreduced fraction `n / d`.  All constructors used by the embedding
produce a positive denominator; operations preserve it. -/
structure Frac where
  n : Int
  d : Nat
  deriving Repr, DecidableEq

/-- Embed an integer as a fraction. -/
def Frac.ofInt (n : Int) : Frac := ⟨n, 1⟩

/-- Product of fractions (no normalization). -/
def Frac.mul (a b : Frac) : Frac := ⟨a.n * b.n, a.d * b.d⟩

/-- Negation of a fraction. -/
def Frac.neg (a : Frac) : Frac := ⟨-a.n, a.d⟩

/-- Absolute value of a fraction. -/
def Frac.abs (a : Frac) : Frac := ⟨|a.n|, a.d⟩

/-- Strict comparison of fractions by cross-multiplication (valid because all
denominators in the embedding are positive). -/
def Frac.blt (a b : Frac) : Bool := a.n * (b.d : Int) < b.n * (a.d : Int)

/-- Floor of a fraction (floor division, valid for positive denominators). -/
def Frac.floor (a : Frac) : Int := a.n.fdiv (a.d : Int)

/-- The power of two `2^e` as a fraction. -/
def rat2 (e : Int) : Frac :=
  if 0 ≤ e then ⟨(2 : Int) ^ e.toNat, 1⟩ else ⟨1, 2 ^ (-e).toNat⟩

/-- Number of binary digits of a natural number, computed with explicit fuel
so that it reduces in the kernel (`bitLen 0 = 0`, `bitLen n = ⌊log₂ n⌋ + 1`
for `n > 0`). -/
def bitLenAux : Nat → Nat → Nat
  | 0, _ => 0
  | fuel + 1, n => if n = 0 then 0 else bitLenAux fuel (n / 2) + 1

/-- Bit length of a natural number. -/
def bitLen (n : Nat) : Nat := bitLenAux n n

/-- `⌊log₂ q⌋` for a positive fraction `q`, via bit lengths of numerator and
denominator with a one-step correction in each direction. -/
def floorLog2 (q : Frac) : Int :=
  let e : Int := (bitLen q.n.natAbs : Int) - (bitLen q.d : Int)
  if q.blt (rat2 e) then e - 1
  else if q.blt (rat2 (e + 1)) then e else e + 1

/-- Round a fraction to the nearest integer, ties to even
(IEEE-754 default rounding of the significand).  The quantity
`2 * (x.n - ⌊x⌋ * x.d)` is twice the fractional remainder scaled by `x.d`,
compared against `x.d` to classify the fraction against one half. -/
def roundHalfEven (x : Frac) : Int :=
  if 2 * (x.n - x.floor * (x.d : Int)) < (x.d : Int) then x.floor
  else if (x.d : Int) < 2 * (x.n - x.floor * (x.d : Int)) then x.floor + 1
  else if x.floor % 2 = 0 then x.floor else x.floor + 1

/-- Round a positive fraction to the nearest binary64 value: scale into the
53-bit significand range for its binade, round ties-to-even, scale back. -/
def toDoubleMag (aq : Frac) : Frac :=
  let e := floorLog2 aq
  let m := roundHalfEven (aq.mul (rat2 (52 - e)))
  Frac.mul ⟨m, 1⟩ (rat2 (e - 52))

/-- Round a fraction to the nearest binary64 value (finite normal range). -/
def toDouble (q : Frac) : Frac :=
  if q.n = 0 then ⟨0, 1⟩
  else if q.n < 0 then (toDoubleMag ⟨-q.n, q.d⟩).neg
  else toDoubleMag q

/-- JavaScript `*` on doubles: exact product, rounded to the nearest double. -/
def jsMul (a b : Frac) : Frac := toDouble (a.mul b)

/-- JavaScript `Math.round` on the exact value of a double:
`⌊x + 1/2⌋`, ties toward `+∞` per ECMAScript. -/
def roundJS (x : Frac) : Int := (2 * x.n + (x.d : Int)).fdiv (2 * (x.d : Int))

/-- Round half away from zero, the rounding policy named by the spec
(`Modelled from the spec`: "round-half-away-from-zero on the scaled decimal
value"). -/
def halfAwayFromZero (x : Frac) : Int :=
  if 0 ≤ x.n then roundJS x else -(roundJS x.neg)

/-- Leading decimal digits of a character list: accumulated value, number of
digits consumed, and the rest. -/
def takeDigits : Nat → Nat → List Char → Nat × Nat × List Char
  | acc, count, [] => (acc, count, [])
  | acc, count, c :: cs =>
    if '0' ≤ c ∧ c ≤ '9' then
      takeDigits (acc * 10 + (c.toNat - '0'.toNat)) (count + 1) cs
    else (acc, count, c :: cs)

/-- Exact value of an unsigned decimal numeral prefix: digits, then an
optional `.` and more digits; `none` when no digit is found (`NaN`).
Trailing garbage is ignored, as `parseFloat` does. -/
def parseUnsigned (cs : List Char) : Option Frac :=
  match takeDigits 0 0 cs with
  | (ip, icount, c :: cs2) =>
    if c = '.' then
      match takeDigits 0 0 cs2 with
      | (fp, fcount, _) =>
        if icount = 0 ∧ fcount = 0 then none
        else some ⟨((ip * 10 ^ fcount + fp : Nat) : Int), 10 ^ fcount⟩
    else if icount = 0 then none else some ⟨(ip : Int), 1⟩
  | (ip, icount, []) => if icount = 0 then none else some ⟨(ip : Int), 1⟩

/-- Exact decimal value of a numeral string with optional leading `-`;
`none` models `parseFloat` returning `NaN`. -/
def parseDec (s : String) : Option Frac :=
  match s.data with
  | '-' :: rest => (parseUnsigned rest).map Frac.neg
  | cs => parseUnsigned cs

/-- Models `amountStr.startsWith("-")` from the source. -/
def jsStartsWithDash (s : String) : Bool :=
  match s.data with
  | '-' :: _ => true
  | _ => false

/-- Models `amountStr.substring(1)` from the source. -/
def jsSubstringOne (s : String) : String := ⟨s.data.tail⟩

/-- Models `Math.round(parseFloat(s) * 100).toString()`, the amount
computation shared by all three normalizers (`src/index.ts` lines 71, 186-189,
272). -/
def amountString (s : String) : String :=
  match parseDec s with
  | some q => toString (roundJS (jsMul (toDouble q) (Frac.ofInt 100)))
  | none => "NaN"

/-- JavaScript string truthiness on an optional string field:
`undefined` and `""` are falsy, everything else is itself. -/
def jsTruthy : Option String → Option String
  | some s => if s = "" then none else some s
  | none => none

/-- JavaScript `a || b` where `a` is an optional string and `b` a string. -/
def jsOr (a : Option String) (b : String) : String :=
  match jsTruthy a with
  | some s => s
  | none => b

/-- Template-literal interpolation of a possibly-`undefined` string. -/
def showJS : Option String → String
  | some s => s
  | none => "undefined"

/-- The canonical record (`InOutRecord` schema, `src/index.ts` lines 20-37),
as the normalizers construct it.  The zod schema is only used as a type in the
source (`z.infer`); `InOutRecord.parse` is never called, so no preprocessing
(amount `BigInt` coercion, currency upper-casing) runs on these values.
`date` carries the millisecond timestamp; the source stores
`new Date(t).toISOString()` and later reads it back with `Date.parse`, an
exact round-trip for valid timestamps, modeled as the identity.
`createdAt`/`updatedAt` are optional, never set, and omitted. -/
structure InOutRecord where
  amount : String
  rtype : String
  currency : String
  description : String
  tag : Option String
  externalId : Option String
  date : Int
  secondaryAmount : Option String
  secondaryCurrency : Option String
  deriving Repr, DecidableEq

/-- A raw Binance P2P order, with the fields `parseOrderToRecord` reads.
`fiatAmount` is optional; `createTime` is a valid millisecond timestamp
(an invalid one would make `toISOString` throw inside the fetcher
level `try`, discarding the whole kind for the cycle). -/
structure P2POrder where
  amount : String
  tradeType : String
  asset : String
  fiat : String
  counterPartNickName : String
  orderNumber : String
  createTime : Int
  fiatAmount : Option String
  deriving Repr, DecidableEq

/-- `parseOrderToRecord` (`src/index.ts` lines 70-92). -/
def parseOrderToRecord (o : P2POrder) : InOutRecord where
  amount := amountString o.amount
  rtype := if o.tradeType = "BUY" then "in" else "out"
  currency := o.asset
  description := "P2P " ++ o.tradeType ++ " " ++ o.asset ++ " for " ++ o.fiat
  tag := none
  externalId := some ("BN-" ++ o.orderNumber)
  date := o.createTime
  secondaryAmount :=
    match jsTruthy o.fiatAmount with
    | some fa => some (amountString fa)
    | none => none
  secondaryCurrency := some o.fiat

/-- A raw Binance Pay transaction, with the fields
`parsePayTransactionToRecord` reads.  `amount` is optional: on an absent
amount, `amountStr.startsWith` throws a `TypeError`. -/
structure PayTransaction where
  amount : Option String
  currency : String
  transactionId : String
  transactionTime : Int
  payerName : Option String
  payerEmail : Option String
  receiverName : Option String
  receiverEmail : Option String
  deriving Repr, DecidableEq

/-- Body of `parsePayTransactionToRecord` (`src/index.ts` lines 182-214)
once `transaction.amount` is known to be the string `s`. -/
def parsePayCore (t : PayTransaction) (s : String) : InOutRecord :=
  let stripped := if jsStartsWithDash s then jsSubstringOne s else s
  let user :=
    if jsStartsWithDash s then jsOr t.receiverName (jsOr t.receiverEmail "Unknown")
    else jsOr t.payerName (jsOr t.payerEmail "Unknown")
  { amount := amountString stripped
    rtype := if jsStartsWithDash s then "out" else "in"
    currency := t.currency
    description :=
      "Binance Pay " ++ (if jsStartsWithDash s then "to" else "from") ++ " " ++ user
    tag := none
    externalId := some ("PAY-" ++ t.transactionId)
    date := t.transactionTime
    secondaryAmount := none
    secondaryCurrency := none }

/-- `parsePayTransactionToRecord`: total on transactions whose `amount`
field is present; an absent amount makes `amountStr.startsWith("-")` throw,
modeled as `Except.error`. -/
def parsePayTransactionToRecord (t : PayTransaction) : Except String InOutRecord :=
  match t.amount with
  | some s => Except.ok (parsePayCore t s)
  | none => Except.error "TypeError: amountStr.startsWith is not a function"

/-- Map a fallible function over a list, stopping at the first error —
the semantics of `Array.prototype.map` with a throwing callback. -/
def mapExcept {α β ε : Type} (f : α → Except ε β) : List α → Except ε (List β)
  | [] => Except.ok []
  | x :: xs =>
    match f x, mapExcept f xs with
    | Except.ok b, Except.ok bs => Except.ok (b :: bs)
    | Except.error e, _ => Except.error e
    | Except.ok _, Except.error e => Except.error e

/-- The normalization stage of `getPayTransactions` (`src/index.ts` lines
257-263): `transactions.map(parsePayTransactionToRecord)` inside the
function-level `try`; any exception discards the whole batch (`return []`). -/
def getPayRecords (ts : List PayTransaction) : List InOutRecord :=
  match mapExcept parsePayTransactionToRecord ts with
  | Except.ok rs => rs
  | Except.error _ => []

/-- A raw Binance deposit, with the fields `parseDepositToRecord` reads.
`asset` is optional (the source defaults it with `deposit.asset || "USD"`). -/
structure Deposit where
  amount : String
  asset : Option String
  txId : String
  insertTime : Int
  deriving Repr, DecidableEq

/-- `parseDepositToRecord` (`src/index.ts` lines 271-288). -/
def parseDepositToRecord (d : Deposit) : InOutRecord where
  amount := amountString d.amount
  rtype := "in"
  currency := jsOr d.asset "USD"
  description := "Deposit " ++ showJS d.asset ++ " to Binance"
  tag := none
  externalId := some ("BN-" ++ d.txId)
  date := d.insertTime
  secondaryAmount := none
  secondaryCurrency := none

/-- `getExistingExternalIds` (`src/index.ts` lines 119-138).  The downstream
response is `some rows` on a 2xx response whose rows carry an optional
`externalId` field, and `none` on a network error or a non-2xx status — in
both failure cases the function returns the empty set.  The `Set` is modeled
as a list with membership by `contains`; `.filter(Boolean)` drops absent and
empty ids. -/
def getExistingExternalIds (resp : Option (List (Option String))) : List String :=
  match resp with
  | some rows => rows.filterMap jsTruthy
  | none => []

/-- The predicate of the duplicate filter in `sendRecords` (`src/index.ts` lines
148-150): `record.externalId && !existingIds.has(record.externalId)`. -/
def recordPasses (existing : List String) (r : InOutRecord) : Bool :=
  match jsTruthy r.externalId with
  | some id => !(existing.contains id)
  | none => false

/-- The deduplication filter inside `sendRecords`: the candidate batch
restricted to records passing `recordPasses`. -/
def sendRecordsFilter (records : List InOutRecord) (existing : List String) :
    List InOutRecord :=
  records.filter (recordPasses existing)

/-- `sendRecords` (`src/index.ts` lines 144-175), returning the batch POSTed
to the bulk endpoint (empty means no network call).  A failed POST is caught
and only logged, so the observable result of the function does not depend on it. -/
def sendRecords (records : List InOutRecord)
    (resp : Option (List (Option String))) : List InOutRecord :=
  sendRecordsFilter records (getExistingExternalIds resp)

/-- Maximum of a list of timestamps, `Math.max(...)` on a non-empty spread. -/
def listMaxInt : List Int → Option Int
  | [] => none
  | x :: xs => some (xs.foldl max x)

/-- Result of one `main` cycle: the three POSTed batches and the new
watermark. -/
structure CycleOutcome where
  sentP2P : List InOutRecord
  sentDeposits : List InOutRecord
  sentPays : List InOutRecord
  watermark : Int
  deriving Repr, DecidableEq

/-- One cycle of `main` (`src/index.ts` lines 331-351): send each fetched
kind (each `sendRecords` call doing its own known-ids GET, `resp1`-`resp3`),
then advance `lastFetchedTimestamp` to the maximum `Date.parse(r.date)` over
all fetched records — only if at least one record was fetched.  The
`postOk` flags model whether each bulk POST succeeded; a failure is caught
and logged inside `sendRecords`, so no part of the outcome reads them.
`handleIncomingActions` (lines 315-328) performs the same filter and the same
watermark update on the concatenation of the three fetched lists. -/
def mainCycle (old : Int) (p2p deposits pays : List InOutRecord)
    (resp1 resp2 resp3 : Option (List (Option String)))
    (_postOk1 _postOk2 _postOk3 : Bool) : CycleOutcome :=
  let allRecords := p2p ++ deposits ++ pays
  { sentP2P := sendRecords p2p resp1
    sentDeposits := sendRecords deposits resp2
    sentPays := sendRecords pays resp3
    watermark :=
      match listMaxInt (allRecords.map (fun r => r.date)) with
      | some m => m
      | none => old }

/-- Modelled from the spec: the Deduplication Filter contract as §4.4 and
the claim word it — "the subset of the candidate batch whose `externalId`
is present and not in that known set".  Used only to compare the wording of
the spec against `sendRecordsFilter`. -/
def specDedupFilter (records : List InOutRecord) (known : List String) :
    List InOutRecord :=
  records.filter (fun r => r.externalId.isSome && !(known.contains (r.externalId.getD "")))

/-- A record distinguished only by its `externalId`, used in concrete
instances of the deduplication claims. -/
def recordWithId (id : Option String) : InOutRecord where
  amount := "100"
  rtype := "in"
  currency := "USDT"
  description := "record"
  tag := none
  externalId := id
  date := 0
  secondaryAmount := none
  secondaryCurrency := none

/-- A concrete fetched record with date 7, for the watermark witness. -/
def recDate7 : InOutRecord := { recordWithId (some "BN-1") with date := 7 }

/-- The concrete pay transfer used as witness for claim C3. -/
def payTxNeg : PayTransaction where
  amount := some "-12.3"
  currency := "USDT"
  transactionId := "42"
  transactionTime := 0
  payerName := none
  payerEmail := none
  receiverName := some "Alice"
  receiverEmail := none

/-- A pay transfer with amount exactly `"0"`. -/
def payTxZero : PayTransaction where
  amount := some "0"
  currency := "USDT"
  transactionId := "1"
  transactionTime := 0
  payerName := some "Alice"
  payerEmail := none
  receiverName := none
  receiverEmail := none

/-- A pay transfer with an unparsable amount string. -/
def payTxNaN : PayTransaction where
  amount := some "abc"
  currency := "USDT"
  transactionId := "2"
  transactionTime := 0
  payerName := none
  payerEmail := some "bob@example.com"
  receiverName := none
  receiverEmail := none

/-- A pay transfer whose amount field is absent (normalization throws). -/
def payTxNoAmount : PayTransaction where
  amount := none
  currency := "USDT"
  transactionId := "3"
  transactionTime := 0
  payerName := none
  payerEmail := none
  receiverName := none
  receiverEmail := none

/-- A well-formed pay transfer sharing a batch with the edge cases. -/
def payTxFive : PayTransaction where
  amount := some "5"
  currency := "USDT"
  transactionId := "4"
  transactionTime := 0
  payerName := some "Carol"
  payerEmail := none
  receiverName := none
  receiverEmail := none

/-- True when a string contains no lower-case ASCII letter — the sense in
which the produced currency codes would be "upper-case strings". -/
def isUpperStr (s : String) : Bool :=
  s.data.all fun c => decide (¬('a' ≤ c ∧ c ≤ 'z'))

/-- A P2P order whose upstream asset code is lower-case. -/
def orderLowerAsset : P2POrder where
  amount := "1"
  tradeType := "BUY"
  asset := "usdt"
  fiat := "EUR"
  counterPartNickName := "x"
  orderNumber := "7"
  createTime := 0
  fiatAmount := none

/-! ## Basic lemmas about the embedding -/

theorem jsTruthy_eq_some {o : Option String} {id : String} :
    jsTruthy o = some id ↔ o = some id ∧ id ≠ "" := by
  cases o with
  | none => simp [jsTruthy]
  | some s =>
    simp only [jsTruthy, Option.some.injEq]
    by_cases h : s = ""
    · simp only [if_pos h]
      constructor
      · intro hc; cases hc
      · rintro ⟨he, hne⟩
        exact absurd (h ▸ he) (fun h2 => hne h2.symm)
    · simp only [if_neg h, Option.some.injEq]
      constructor
      · intro he; exact ⟨he, fun h2 => h (he ▸ h2)⟩
      · intro hp; exact hp.1

theorem recordPasses_eq_true {existing : List String} {r : InOutRecord} :
    recordPasses existing r = true ↔
      ∃ id, r.externalId = some id ∧ id ≠ "" ∧ id ∉ existing := by
  unfold recordPasses
  cases hjt : jsTruthy r.externalId with
  | none =>
    simp only [Bool.false_eq_true, false_iff]
    rintro ⟨id, hid, hne, -⟩
    rw [jsTruthy_eq_some.mpr ⟨hid, hne⟩] at hjt
    cases hjt
  | some id =>
    obtain ⟨hid, hne⟩ := jsTruthy_eq_some.mp hjt
    simp only [Bool.not_eq_true', ← Bool.not_eq_true]
    constructor
    · intro hc
      refine ⟨id, hid, hne, fun hmem => hc ?_⟩
      simp [List.contains, List.elem_eq_mem, hmem]
    · rintro ⟨id2, hid2, -, hmem⟩ hc
      rw [hid] at hid2
      cases hid2
      simp only [List.contains, List.elem_eq_mem, decide_eq_true_eq] at hc
      exact hmem hc

theorem mem_sendRecordsFilter {records : List InOutRecord} {known : List String}
    {r : InOutRecord} :
    r ∈ sendRecordsFilter records known ↔
      r ∈ records ∧ ∃ id, r.externalId = some id ∧ id ≠ "" ∧ id ∉ known := by
  unfold sendRecordsFilter
  rw [List.mem_filter, recordPasses_eq_true]

theorem init_le_foldl_max (ds : List Int) (d : Int) : d ≤ ds.foldl max d := by
  induction ds generalizing d with
  | nil => exact le_refl d
  | cons x xs ih =>
    simp only [List.foldl_cons]
    exact le_trans (le_max_left d x) (ih (max d x))

theorem foldl_max_mem (ds : List Int) (d : Int) :
    ds.foldl max d = d ∨ ds.foldl max d ∈ ds := by
  induction ds generalizing d with
  | nil => exact Or.inl rfl
  | cons x xs ih =>
    simp only [List.foldl_cons]
    rcases ih (max d x) with h | h
    · rcases max_choice d x with h2 | h2
      · exact Or.inl (h.trans h2)
      · exact Or.inr (by rw [h, h2]; exact List.mem_cons_self x xs)
    · exact Or.inr (List.mem_cons_of_mem x h)

theorem le_foldl_max (ds : List Int) (d y : Int) (h : y = d ∨ y ∈ ds) :
    y ≤ ds.foldl max d := by
  induction ds generalizing d with
  | nil =>
    rcases h with rfl | h
    · exact le_refl y
    · cases h
  | cons x xs ih =>
    simp only [List.foldl_cons]
    rcases h with rfl | h
    · exact le_trans (le_max_left y x) (init_le_foldl_max xs (max y x))
    · rcases List.mem_cons.mp h with rfl | h2
      · exact le_trans (le_max_right d y) (init_le_foldl_max xs (max d y))
      · exact ih (max d x) (Or.inr h2)

theorem listMaxInt_spec {l : List Int} {m : Int} (h : listMaxInt l = some m) :
    m ∈ l ∧ ∀ y ∈ l, y ≤ m := by
  cases l with
  | nil => cases h
  | cons x xs =>
    simp only [listMaxInt, Option.some.injEq] at h
    subst h
    constructor
    · rcases foldl_max_mem xs x with h | h
      · rw [h]; exact List.mem_cons_self x xs
      · exact List.mem_cons_of_mem x h
    · intro y hy
      exact le_foldl_max xs x y (by
        rcases List.mem_cons.mp hy with rfl | h2
        · exact Or.inl rfl
        · exact Or.inr h2)

theorem mapExcept_ok_of_all_ok {α β ε : Type} (f : α → Except ε β) (g : α → β) :
    ∀ ts : List α, (∀ t ∈ ts, f t = Except.ok (g t)) →
      mapExcept f ts = Except.ok (ts.map g) := by
  intro ts
  induction ts with
  | nil => intro _; rfl
  | cons x xs ih =>
    intro h
    have hx := h x (List.mem_cons_self x xs)
    have hxs := ih fun t ht => h t (List.mem_cons_of_mem x ht)
    simp [mapExcept, hx, hxs]

theorem mapExcept_error_of_mem {α β ε : Type} (f : α → Except ε β) {e : ε} :
    ∀ (ts : List α) (t : α), t ∈ ts → f t = Except.error e →
      ∃ e2, mapExcept f ts = Except.error e2 := by
  intro ts
  induction ts with
  | nil => intro t ht; cases ht
  | cons x xs ih =>
    intro t ht hft
    rcases List.mem_cons.mp ht with rfl | h2
    · exact ⟨e, by simp [mapExcept, hft]⟩
    · obtain ⟨e2, he2⟩ := ih t h2 hft
      cases hfx : f x with
      | ok b => exact ⟨e2, by simp [mapExcept, hfx, he2]⟩
      | error e3 => exact ⟨e3, by simp [mapExcept, hfx]⟩

theorem mapExcept_ok_mem {α β ε : Type} (f : α → Except ε β) :
    ∀ (ts : List α) (rs : List β), mapExcept f ts = Except.ok rs →
      ∀ r ∈ rs, ∃ t ∈ ts, f t = Except.ok r := by
  intro ts
  induction ts with
  | nil =>
    intro rs h r hr
    cases h
    cases hr
  | cons x xs ih =>
    intro rs h r hr
    cases hfx : f x with
    | error e => simp [mapExcept, hfx] at h
    | ok b =>
      cases hxs : mapExcept f xs with
      | error e => simp [mapExcept, hfx, hxs] at h
      | ok bs =>
        simp only [mapExcept, hfx, hxs, Except.ok.injEq] at h
        subst h
        rcases List.mem_cons.mp hr with rfl | h2
        · exact ⟨x, List.mem_cons_self x xs, hfx⟩
        · obtain ⟨t, ht, hft⟩ := ih bs hxs r h2
          exact ⟨t, List.mem_cons_of_mem x ht, hft⟩

/-! ## Lemmas about the numeric model -/

theorem parseUnsigned_shape {cs : List Char} {u : Frac}
    (h : parseUnsigned cs = some u) : 0 ≤ u.n ∧ 0 < u.d := by
  unfold parseUnsigned at h
  split at h
  · split at h
    · split at h
      · split at h
        · cases h
        · rw [← Option.some.injEq] at h
          cases h
          exact ⟨Int.natCast_nonneg _, pow_pos (by norm_num) _⟩
    · split at h
      · cases h
      · cases h
        exact ⟨Int.natCast_nonneg _, one_pos⟩
  · split at h
    · cases h
    · cases h
      exact ⟨Int.natCast_nonneg _, one_pos⟩

theorem takeDigits_dash (acc count : Nat) (r : List Char) :
    takeDigits acc count ('-' :: r) = (acc, count, '-' :: r) := by
  unfold takeDigits
  rw [if_neg (by decide)]

theorem parseUnsigned_dash (r : List Char) : parseUnsigned ('-' :: r) = none := by
  unfold parseUnsigned
  rw [takeDigits_dash]
  simp only []
  rw [if_neg (by decide)]
  simp

theorem parseDec_shape {s : String} {q : Frac} (h : parseDec s = some q) :
    0 < q.d := by
  unfold parseDec at h
  split at h
  · rcases Option.map_eq_some'.mp h with ⟨u, hu, he⟩
    subst he
    exact (parseUnsigned_shape hu).2
  · exact (parseUnsigned_shape h).2

theorem rat2_n_pos (e : Int) : 0 < (rat2 e).n := by
  unfold rat2
  split
  · exact pow_pos (by norm_num) _
  · norm_num

theorem roundHalfEven_nonneg {x : Frac} (hn : 0 ≤ x.n) : 0 ≤ roundHalfEven x := by
  have hf : 0 ≤ x.floor := Int.fdiv_nonneg hn (Int.natCast_nonneg x.d)
  unfold roundHalfEven
  split
  · exact hf
  · split
    · omega
    · split
      · exact hf
      · omega

theorem toDoubleMag_n_nonneg {aq : Frac} (hn : 0 ≤ aq.n) :
    0 ≤ (toDoubleMag aq).n := by
  unfold toDoubleMag
  refine mul_nonneg ?_ (le_of_lt (rat2_n_pos _))
  exact roundHalfEven_nonneg (mul_nonneg hn (le_of_lt (rat2_n_pos _)))

theorem toDouble_n_nonneg {q : Frac} (hn : 0 ≤ q.n) : 0 ≤ (toDouble q).n := by
  unfold toDouble
  split
  · norm_num
  · split
    · omega
    · exact toDoubleMag_n_nonneg hn

theorem string_append_cons_ne_empty {p x : String} {c : Char} {cs : List Char}
    (hp : p.data = c :: cs) : (p ++ x) ≠ "" := by
  intro h
  have h2 : (p ++ x).data = "".data := congrArg String.data h
  have h3 : (p ++ x).data = p.data ++ x.data := rfl
  rw [h3, hp, List.cons_append] at h2
  cases h2

/-! ## Claim C1: output of the deduplication filter -/

/-- Claim C1, counterexample.  A record whose `externalId` is defined but
equal to `""` is *defined and not a member* of the empty known set, so the
subset named by the claim (computed by `specDedupFilter`, following the
wording of the spec) keeps it — but the truthiness test of the source,
`record.externalId && ...`, drops it. -/
theorem sendRecords_empty_externalId_divergence :
    sendRecords [recordWithId (some "")] (some []) = [] ∧
    specDedupFilter [recordWithId (some "")] (getExistingExternalIds (some []))
      = [recordWithId (some "")] := by
  decide

/-- Claim C1, amended: the filter output is exactly the subset of the batch
whose `externalId` is defined, non-empty, and not a member of the known-id
set returned by the downstream query; on the known set `{"BN-1","PAY-2"}` and
a batch with externalIds `["BN-1","BN-3","PAY-2"]` it keeps only the
`"BN-3"` record. -/
theorem sendRecords_filter_characterization :
    (∀ (records : List InOutRecord) (resp : Option (List (Option String)))
        (r : InOutRecord),
        r ∈ sendRecords records resp ↔
          r ∈ records ∧ ∃ id, r.externalId = some id ∧ id ≠ "" ∧
            id ∉ getExistingExternalIds resp) ∧
    sendRecords
        [recordWithId (some "BN-1"), recordWithId (some "BN-3"),
          recordWithId (some "PAY-2")]
        (some [some "BN-1", some "PAY-2"])
      = [recordWithId (some "BN-3")] := by
  constructor
  · intro records resp r
    exact mem_sendRecordsFilter
  · decide

/-! ## Claim C6: records with no externalId -/

/-- Claim C6, counterexample.  A record with an absent `externalId` is
removed by the filter even against an empty known set — it is not passed
through to submission as the claim states. -/
theorem missing_externalId_record_dropped :
    (recordWithId none).externalId = none ∧
    sendRecords [recordWithId none] (some []) = [] := by
  decide

/-- Claim C6, amended: a candidate record whose `externalId` is absent is
removed by the deduplication filter unconditionally, whatever the known-id
set; it is never submitted (so it is dropped rather than merely lacking
re-submission protection). -/
theorem missing_externalId_always_filtered :
    ∀ (records : List InOutRecord) (known : List String) (r : InOutRecord),
      r ∈ records → r.externalId = none →
      r ∉ sendRecordsFilter records known := by
  intro records known r _ hid hmem
  obtain ⟨-, id, hid2, -, -⟩ := mem_sendRecordsFilter.mp hmem
  rw [hid] at hid2
  cases hid2

/-- Witness for `missing_externalId_always_filtered` at a concrete record
and known set. -/
theorem missing_externalId_always_filtered_witness :
    recordWithId none ∉ sendRecordsFilter [recordWithId none] ["BN-1"] :=
  missing_externalId_always_filtered [recordWithId none] ["BN-1"]
    (recordWithId none) (by decide) rfl

/-! ## Claim C7: failed known-ids query degrades to the empty set -/

/-- Claim C7: when the downstream known-records query fails (network error or
non-2xx), `getExistingExternalIds` yields the empty set and `sendRecords`
submits the whole fetched batch — every record the three normalizers produce
carries a non-empty prefixed `externalId`, so none is filtered. -/
theorem dedup_query_failure_submits_whole_batch :
    ∀ (orders : List P2POrder) (deposits : List Deposit)
      (pays : List PayTransaction),
      getExistingExternalIds none = [] ∧
      sendRecords (orders.map parseOrderToRecord
          ++ deposits.map parseDepositToRecord ++ getPayRecords pays) none
        = orders.map parseOrderToRecord
          ++ deposits.map parseDepositToRecord ++ getPayRecords pays := by
  intro orders deposits pays
  refine ⟨rfl, ?_⟩
  show sendRecordsFilter _ [] = _
  unfold sendRecordsFilter
  rw [List.filter_eq_self]
  intro r hr
  rw [recordPasses_eq_true]
  rcases List.mem_append.mp hr with hr2 | hpay
  · rcases List.mem_append.mp hr2 with ho | hd
    · obtain ⟨o, -, rfl⟩ := List.mem_map.mp ho
      exact ⟨"BN-" ++ o.orderNumber, rfl, string_append_cons_ne_empty rfl,
        List.not_mem_nil _⟩
    · obtain ⟨d, -, rfl⟩ := List.mem_map.mp hd
      exact ⟨"BN-" ++ d.txId, rfl, string_append_cons_ne_empty rfl,
        List.not_mem_nil _⟩
  · cases hm : mapExcept parsePayTransactionToRecord pays with
    | error e =>
      unfold getPayRecords at hpay
      rw [hm] at hpay
      cases hpay
    | ok rs =>
      unfold getPayRecords at hpay
      rw [hm] at hpay
      obtain ⟨t, -, hft⟩ := mapExcept_ok_mem _ pays rs hm r hpay
      cases ha : t.amount with
      | none =>
        unfold parsePayTransactionToRecord at hft
        rw [ha] at hft
        cases hft
      | some s =>
        unfold parsePayTransactionToRecord at hft
        rw [ha] at hft
        cases hft
        exact ⟨"PAY-" ++ t.transactionId, rfl, string_append_cons_ne_empty rfl,
          List.not_mem_nil _⟩

/-! ## Claim C2: the watermark after one cycle -/

/-- Claim C2: after one full cycle, if at least one record was fetched across
the three kinds, the watermark is the maximum parsed date over all fetched
records — independent of the known-ids responses (duplicate filtering) and of
the bulk-POST outcomes; if no record was fetched, the watermark is
unchanged. -/
theorem watermark_is_max_of_fetched :
    ∀ (old : Int) (p2p deposits pays : List InOutRecord)
      (r1 r2 r3 : Option (List (Option String))) (b1 b2 b3 : Bool),
      (p2p ++ deposits ++ pays = [] →
        (mainCycle old p2p deposits pays r1 r2 r3 b1 b2 b3).watermark = old) ∧
      (p2p ++ deposits ++ pays ≠ [] →
        (mainCycle old p2p deposits pays r1 r2 r3 b1 b2 b3).watermark
            ∈ (p2p ++ deposits ++ pays).map (fun r => r.date) ∧
          ∀ r ∈ p2p ++ deposits ++ pays,
            r.date ≤ (mainCycle old p2p deposits pays r1 r2 r3 b1 b2 b3).watermark) := by
  intro old p2p deposits pays r1 r2 r3 b1 b2 b3
  constructor
  · intro h
    simp [mainCycle, h, listMaxInt]
  · intro h
    cases hm : listMaxInt ((p2p ++ deposits ++ pays).map (fun r => r.date)) with
    | none =>
      exfalso
      cases hl : p2p ++ deposits ++ pays with
      | nil => exact h hl
      | cons a as =>
        rw [hl] at hm
        simp [listMaxInt] at hm
    | some m =>
      have hspec := listMaxInt_spec hm
      have hwm : (mainCycle old p2p deposits pays r1 r2 r3 b1 b2 b3).watermark = m := by
        show (match listMaxInt ((p2p ++ deposits ++ pays).map (fun r => r.date)) with
              | some m => m
              | none => old) = m
        rw [hm]
      rw [hwm]
      exact ⟨hspec.1, fun r hr => hspec.2 _ (List.mem_map_of_mem _ hr)⟩

/-- Witness for `watermark_is_max_of_fetched`: one fetched record with
date 7, a failed dedup query, a failed POST — the watermark becomes 7. -/
theorem watermark_is_max_of_fetched_witness :
    (mainCycle 5 [recDate7] [] [] none none none false false false).watermark
      ∈ ([recDate7] ++ ([] : List InOutRecord) ++ ([] : List InOutRecord)).map
          (fun r => r.date) ∧
    ∀ r ∈ [recDate7] ++ ([] : List InOutRecord) ++ ([] : List InOutRecord),
      r.date ≤ (mainCycle 5 [recDate7] [] []
          none none none false false false).watermark :=
  (watermark_is_max_of_fetched 5 [recDate7]
    [] [] none none none false false false).2 (by decide)

/-! ## Claim C9: a second identical run sends nothing -/

theorem second_run_filter_empty (records : List InOutRecord)
    (known known2 : List String)
    (hsub : ∀ id, id ∈ known → id ∈ known2)
    (hsent : ∀ r ∈ sendRecordsFilter records known,
      ∀ id, r.externalId = some id → id ∈ known2) :
    sendRecordsFilter records known2 = [] := by
  unfold sendRecordsFilter
  rw [List.filter_eq_nil_iff]
  intro r hr hp
  obtain ⟨id, hid, hne, hnot⟩ := recordPasses_eq_true.mp hp
  by_cases hk : id ∈ known
  · exact hnot (hsub id hk)
  · have hr1 : r ∈ sendRecordsFilter records known :=
      mem_sendRecordsFilter.mpr ⟨hr, id, hid, hne, hk⟩
    exact hnot (hsent r hr1 id hid)

/-- Claim C9: run the pipeline twice on unchanged upstream data (same three
fetched lists).  If, for each kind, the second known-ids response contains everything
its first response contained plus the `externalId` of every record submitted
for that kind in the first run, the second run submits nothing. -/
theorem pipeline_second_run_sends_nothing :
    ∀ (old1 old2 : Int) (p2p deposits pays : List InOutRecord)
      (r1 r2 r3 s1 s2 s3 : Option (List (Option String)))
      (b1 b2 b3 c1 c2 c3 : Bool),
      (∀ id, id ∈ getExistingExternalIds r1 → id ∈ getExistingExternalIds s1) →
      (∀ r ∈ (mainCycle old1 p2p deposits pays r1 r2 r3 b1 b2 b3).sentP2P,
        ∀ id, r.externalId = some id → id ∈ getExistingExternalIds s1) →
      (∀ id, id ∈ getExistingExternalIds r2 → id ∈ getExistingExternalIds s2) →
      (∀ r ∈ (mainCycle old1 p2p deposits pays r1 r2 r3 b1 b2 b3).sentDeposits,
        ∀ id, r.externalId = some id → id ∈ getExistingExternalIds s2) →
      (∀ id, id ∈ getExistingExternalIds r3 → id ∈ getExistingExternalIds s3) →
      (∀ r ∈ (mainCycle old1 p2p deposits pays r1 r2 r3 b1 b2 b3).sentPays,
        ∀ id, r.externalId = some id → id ∈ getExistingExternalIds s3) →
      (mainCycle old2 p2p deposits pays s1 s2 s3 c1 c2 c3).sentP2P = [] ∧
      (mainCycle old2 p2p deposits pays s1 s2 s3 c1 c2 c3).sentDeposits = [] ∧
      (mainCycle old2 p2p deposits pays s1 s2 s3 c1 c2 c3).sentPays = [] := by
  intro old1 old2 p2p deposits pays r1 r2 r3 s1 s2 s3 b1 b2 b3 c1 c2 c3
  intro h1 h2 h3 h4 h5 h6
  refine ⟨?_, ?_, ?_⟩
  · exact second_run_filter_empty p2p _ _ h1 h2
  · exact second_run_filter_empty deposits _ _ h3 h4
  · exact second_run_filter_empty pays _ _ h5 h6

/-- Witness for `pipeline_second_run_sends_nothing`: one P2P record with id
`"BN-1"`, first run with a failed known-ids query, second run with a
downstream that now returns `"BN-1"` — the second run submits nothing. -/
theorem pipeline_second_run_sends_nothing_witness :
    (mainCycle 1 [recordWithId (some "BN-1")] [] [] (some [some "BN-1"])
        (some []) (some []) true true true).sentP2P = [] ∧
    (mainCycle 1 [recordWithId (some "BN-1")] [] [] (some [some "BN-1"])
        (some []) (some []) true true true).sentDeposits = [] ∧
    (mainCycle 1 [recordWithId (some "BN-1")] [] [] (some [some "BN-1"])
        (some []) (some []) true true true).sentPays = [] := by
  refine pipeline_second_run_sends_nothing 0 1 [recordWithId (some "BN-1")] [] []
    none none none (some [some "BN-1"]) (some []) (some [])
    true true true true true true ?_ ?_ ?_ ?_ ?_ ?_
  · exact fun id h => absurd h (List.not_mem_nil id)
  · intro r hr id hid
    have hs : (mainCycle 0 [recordWithId (some "BN-1")] [] [] none none none
        true true true).sentP2P = [recordWithId (some "BN-1")] := by decide
    rw [hs] at hr
    have hr2 : r = recordWithId (some "BN-1") := List.mem_singleton.mp hr
    subst hr2
    have hid2 : some "BN-1" = some id := hid
    cases hid2
    decide
  · exact fun id h => absurd h (List.not_mem_nil id)
  · intro r hr id hid
    have hs : (mainCycle 0 [recordWithId (some "BN-1")] [] [] none none none
        true true true).sentDeposits = [] := by decide
    rw [hs] at hr
    cases hr
  · exact fun id h => absurd h (List.not_mem_nil id)
  · intro r hr id hid
    have hs : (mainCycle 0 [recordWithId (some "BN-1")] [] [] none none none
        true true true).sentPays = [] := by decide
    rw [hs] at hr
    cases hr

/-! ## Claim C3: pay-transfer sign handling -/

theorem parseDec_of_dash_data {s : String} {q : Frac} {cs : List Char}
    (hdata : s.data = '-' :: cs) (h : parseDec s = some q) :
    ∃ u, parseUnsigned cs = some u ∧ q = u.neg := by
  have h2 : parseDec s = (parseUnsigned cs).map Frac.neg := by
    unfold parseDec
    rw [hdata]
    rfl
  rw [h2] at h
  obtain ⟨u, hu, he⟩ := Option.map_eq_some'.mp h
  exact ⟨u, hu, he.symm⟩

theorem parseDec_mk_of_ok {cs : List Char} {u : Frac}
    (hu : parseUnsigned cs = some u) : parseDec ⟨cs⟩ = some u := by
  unfold parseDec
  split
  · next rest heq =>
    have hcs : cs = '-' :: rest := heq
    rw [hcs, parseUnsigned_dash] at hu
    cases hu
  · next => exact hu

theorem dash_data_of_startsWith {s : String} (h : jsStartsWithDash s = true) :
    ∃ cs, s.data = '-' :: cs := by
  unfold jsStartsWithDash at h
  split at h
  · next cs heq => exact ⟨cs, heq⟩
  · cases h

/-- Claim C3: for a pay transfer whose amount string is a decimal numeral
with value `q`, a leading `-` yields `type = "out"` and an amount equal to
`Math.round`, in double arithmetic, of the absolute value of `q` scaled by
100; no leading `-` yields `type = "in"` (and the same computation on `q`
itself). -/
theorem pay_sign_direction_and_magnitude :
    ∀ (t : PayTransaction) (s : String) (q : Frac),
      t.amount = some s → parseDec s = some q →
      parsePayTransactionToRecord t = Except.ok (parsePayCore t s) ∧
      (jsStartsWithDash s = true →
        (parsePayCore t s).rtype = "out" ∧
        (parsePayCore t s).amount
          = toString (roundJS (jsMul (toDouble q.abs) (Frac.ofInt 100)))) ∧
      (jsStartsWithDash s = false →
        (parsePayCore t s).rtype = "in" ∧
        (parsePayCore t s).amount
          = toString (roundJS (jsMul (toDouble q) (Frac.ofInt 100)))) := by
  intro t s q hts hq
  refine ⟨by simp [parsePayTransactionToRecord, hts], ?_, ?_⟩
  · intro hdash
    obtain ⟨cs, hdata⟩ := dash_data_of_startsWith hdash
    obtain ⟨u, hu, hqu⟩ := parseDec_of_dash_data hdata hq
    have hun : 0 ≤ u.n := (parseUnsigned_shape hu).1
    have habs : q.abs = u := by
      subst hqu
      show Frac.abs (Frac.neg u) = u
      unfold Frac.abs Frac.neg
      simp only [abs_neg]
      rw [abs_of_nonneg hun]
    have hsub : jsSubstringOne s = ⟨cs⟩ := by
      unfold jsSubstringOne
      rw [hdata]
      rfl
    constructor
    · simp [parsePayCore, hdash]
    · have hamt : (parsePayCore t s).amount = amountString ⟨cs⟩ := by
        simp [parsePayCore, hdash, hsub]
      rw [hamt, habs]
      unfold amountString
      rw [parseDec_mk_of_ok hu]
  · intro hdash
    constructor
    · simp [parsePayCore, hdash]
    · have hamt : (parsePayCore t s).amount = amountString s := by
        simp [parsePayCore, hdash]
      rw [hamt]
      unfold amountString
      rw [hq]

/-- Witness for `pay_sign_direction_and_magnitude` at amount `"-12.3"`. -/
theorem pay_sign_direction_and_magnitude_witness :
    parsePayTransactionToRecord payTxNeg = Except.ok (parsePayCore payTxNeg "-12.3") ∧
    (parsePayCore payTxNeg "-12.3").rtype = "out" ∧
    (parsePayCore payTxNeg "-12.3").amount
      = toString (roundJS (jsMul (toDouble (Frac.mk (-123) 10).abs) (Frac.ofInt 100))) := by
  have h := pay_sign_direction_and_magnitude payTxNeg "-12.3" ⟨-123, 10⟩ rfl (by decide)
  exact ⟨h.1, (h.2.1 (by decide)).1, (h.2.1 (by decide)).2⟩

/-! ## Claim C4: the rounding policy -/

/-- Claim C4, counterexample.  For the amount string `"1.005"` the exact
scaled decimal value is `100.5`, whose round-half-away-from-zero is `101`;
but the code computes `Math.round(parseFloat("1.005") * 100)` in double
arithmetic, where the product is `100.49999999999999`, and produces `"100"`.
The claimed rounding is therefore not applied to the scaled decimal value. -/
theorem rounding_not_half_away_on_exact_decimal :
    parseDec "1.005" = some ⟨1005, 1000⟩ ∧
    amountString "1.005" = "100" ∧
    halfAwayFromZero (Frac.mul ⟨1005, 1000⟩ (Frac.ofInt 100)) = 101 := by
  decide

/-- Claim C4, amended: each normalizer computes
`Math.round(parseFloat(s) * 100)` in IEEE-754 double arithmetic; for
non-negative amounts this is round-half-away-from-zero applied to the
double-precision product (not the exact scaled decimal, from which it can
differ).  For `"12.345"` the product is exactly `1234.5` and the normalized
amount is `"1235"` as the instance named in the claim states. -/
theorem rounding_half_away_on_double_product :
    (∀ (s : String) (q : Frac), parseDec s = some q → 0 ≤ q.n →
      amountString s
        = toString (halfAwayFromZero (jsMul (toDouble q) (Frac.ofInt 100)))) ∧
    amountString "12.345" = "1235" := by
  constructor
  · intro s q hq hn
    have hx : 0 ≤ (jsMul (toDouble q) (Frac.ofInt 100)).n := by
      refine toDouble_n_nonneg ?_
      show 0 ≤ (toDouble q).n * (Frac.ofInt 100).n
      exact mul_nonneg (toDouble_n_nonneg hn) (by norm_num [Frac.ofInt])
    have hhalf : halfAwayFromZero (jsMul (toDouble q) (Frac.ofInt 100))
        = roundJS (jsMul (toDouble q) (Frac.ofInt 100)) := by
      unfold halfAwayFromZero
      rw [if_pos hx]
    rw [hhalf]
    unfold amountString
    rw [hq]
  · decide

/-- Witness for `rounding_half_away_on_double_product` at `"12.3"`. -/
theorem rounding_half_away_on_double_product_witness :
    amountString "12.3"
      = toString (halfAwayFromZero (jsMul (toDouble ⟨123, 10⟩) (Frac.ofInt 100))) :=
  rounding_half_away_on_double_product.1 "12.3" ⟨123, 10⟩ (by decide) (by decide)

/-! ## Claim C5: no per-transaction skip exists -/

/-- Claim C5, counterexample.  A batch containing the amount-`"0"`
transaction normalizes it successfully to a record with amount `"0"`: it is
included in the result, not skipped, so normalization of that transaction
does not fail. -/
theorem pay_zero_amount_not_skipped :
    parsePayTransactionToRecord payTxZero = Except.ok (parsePayCore payTxZero "0") ∧
    (parsePayCore payTxZero "0").amount = "0" ∧
    getPayRecords [payTxZero, payTxFive]
      = [parsePayCore payTxZero "0", parsePayCore payTxFive "5"] := by
  exact ⟨rfl, by decide, by decide⟩

/-- Claim C5, amended: a pay-transfer amount of `"0"` or an unparsable
numeric string does not fail normalization — the normalizer returns a record
(amount `"0"`, resp. `"NaN"`) that stays in the batch.  Per-transaction
skip-and-log semantics do not exist: when normalizing any single transaction
throws (e.g. an absent amount field), the fetcher level `try`/`catch` discards
the entire pay batch and returns `[]`. -/
theorem pay_normalization_no_per_transaction_skip :
    (∀ (t : PayTransaction) (s : String), t.amount = some s →
        parsePayTransactionToRecord t = Except.ok (parsePayCore t s)) ∧
    (parsePayCore payTxZero "0").amount = "0" ∧
    (parsePayCore payTxNaN "abc").amount = "NaN" ∧
    (∀ (ts1 ts2 : List PayTransaction) (t : PayTransaction), t.amount = none →
        getPayRecords (ts1 ++ t :: ts2) = []) := by
  refine ⟨?_, by decide, by decide, ?_⟩
  · intro t s h
    simp [parsePayTransactionToRecord, h]
  · intro ts1 ts2 t ht
    have herr : parsePayTransactionToRecord t
        = Except.error "TypeError: amountStr.startsWith is not a function" := by
      simp [parsePayTransactionToRecord, ht]
    obtain ⟨e2, he2⟩ := mapExcept_error_of_mem parsePayTransactionToRecord
      (ts1 ++ t :: ts2) t (List.mem_append.mpr (Or.inr (List.mem_cons_self t ts2))) herr
    unfold getPayRecords
    rw [he2]

/-- Witness for `pay_normalization_no_per_transaction_skip`: the `"0"`
transaction normalizes, and a batch holding an amountless transaction
collapses to `[]`. -/
theorem pay_normalization_no_per_transaction_skip_witness :
    parsePayTransactionToRecord payTxZero = Except.ok (parsePayCore payTxZero "0") ∧
    getPayRecords ([payTxFive] ++ payTxNoAmount :: []) = [] :=
  ⟨pay_normalization_no_per_transaction_skip.1 payTxZero "0" rfl,
    pay_normalization_no_per_transaction_skip.2.2.2 [payTxFive] [] payTxNoAmount rfl⟩

/-! ## Claim C8: currency case -/

/-- Claim C8, counterexample.  The P2P normalizer copies the upstream asset
string verbatim: for asset `"usdt"` the currency of the produced record is
`"usdt"`, which is not an upper-case string.  (The upper-casing zod
preprocess exists but `InOutRecord.parse` is never invoked by the
pipeline.) -/
theorem currency_not_uppercased_by_normalizer :
    (parseOrderToRecord orderLowerAsset).currency = "usdt" ∧
    isUpperStr (parseOrderToRecord orderLowerAsset).currency = false := by
  decide

/-- Claim C8, amended: the normalizers pass the upstream currency strings
through verbatim (the deposit normalizer defaults an absent or empty asset to
`"USD"`); consequently `currency` and `secondaryCurrency` are upper-case
whenever the upstream asset/fiat/currency strings are upper-case, and only
then. -/
theorem currency_passthrough_preserves_case :
    (∀ o : P2POrder,
        (parseOrderToRecord o).currency = o.asset ∧
        (parseOrderToRecord o).secondaryCurrency = some o.fiat ∧
        (isUpperStr o.asset = true →
          isUpperStr (parseOrderToRecord o).currency = true) ∧
        (isUpperStr o.fiat = true →
          ∀ sc, (parseOrderToRecord o).secondaryCurrency = some sc →
            isUpperStr sc = true)) ∧
    (∀ (t : PayTransaction) (s : String),
        (parsePayCore t s).currency = t.currency ∧
        (isUpperStr t.currency = true →
          isUpperStr (parsePayCore t s).currency = true)) ∧
    (∀ d : Deposit,
        (parseDepositToRecord d).currency = jsOr d.asset "USD" ∧
        ((∀ a, d.asset = some a → isUpperStr a = true) →
          isUpperStr (parseDepositToRecord d).currency = true)) := by
  refine ⟨?_, ?_, ?_⟩
  · intro o
    refine ⟨rfl, rfl, ?_, ?_⟩
    · intro h
      exact h
    · intro h sc hsc
      have : some o.fiat = some sc := hsc
      cases this
      exact h
  · intro t s
    exact ⟨rfl, fun h => h⟩
  · intro d
    refine ⟨rfl, ?_⟩
    intro h
    show isUpperStr (jsOr d.asset "USD") = true
    cases ha : d.asset with
    | none => decide
    | some a =>
      by_cases he : a = ""
      · subst he
        decide
      · have h2 := h a ha
        simpa [jsOr, jsTruthy, he] using h2

/-- Witness for `currency_passthrough_preserves_case` at upper-case upstream
strings and at the deposit default. -/
theorem currency_passthrough_preserves_case_witness :
    isUpperStr (parseOrderToRecord { orderLowerAsset with asset := "USDT" }).currency
      = true ∧
    isUpperStr (parsePayCore payTxZero "0").currency = true ∧
    isUpperStr (parseDepositToRecord
        { amount := "1", asset := none, txId := "9", insertTime := 0 }).currency
      = true := by
  refine ⟨?_, ?_, ?_⟩
  · exact ((currency_passthrough_preserves_case.1
      { orderLowerAsset with asset := "USDT" }).2.2.1 (by decide))
  · exact ((currency_passthrough_preserves_case.2.1 payTxZero "0").2 (by decide))
  · exact ((currency_passthrough_preserves_case.2.2
      { amount := "1", asset := none, txId := "9", insertTime := 0 }).2
      (fun a ha => by cases ha))

/-! ## Claim C10: deposit with an absent asset -/

/-- Claim C10: a deposit with no asset is normalized without failing; its
currency defaults to `"USD"`, and every other field is produced by the same
rules as for a deposit carrying an asset — `amount`, `type`, `externalId`,
`date`, `tag` and the secondary fields do not depend on the asset at all,
while the description template interpolates the absent asset as
`"undefined"`. -/
theorem deposit_missing_asset_defaults_usd :
    ∀ (d : Deposit) (a : String), d.asset = none →
      (parseDepositToRecord d).currency = "USD" ∧
      (parseDepositToRecord d).description = "Deposit undefined to Binance" ∧
      (parseDepositToRecord d).amount
        = (parseDepositToRecord { d with asset := some a }).amount ∧
      (parseDepositToRecord d).rtype
        = (parseDepositToRecord { d with asset := some a }).rtype ∧
      (parseDepositToRecord d).externalId
        = (parseDepositToRecord { d with asset := some a }).externalId ∧
      (parseDepositToRecord d).date
        = (parseDepositToRecord { d with asset := some a }).date ∧
      (parseDepositToRecord d).tag
        = (parseDepositToRecord { d with asset := some a }).tag ∧
      (parseDepositToRecord d).secondaryAmount
        = (parseDepositToRecord { d with asset := some a }).secondaryAmount ∧
      (parseDepositToRecord d).secondaryCurrency
        = (parseDepositToRecord { d with asset := some a }).secondaryCurrency := by
  intro d a h
  refine ⟨?_, ?_, rfl, rfl, rfl, rfl, rfl, rfl, rfl⟩
  · show jsOr d.asset "USD" = "USD"
    rw [h]
    rfl
  · show "Deposit " ++ showJS d.asset ++ " to Binance" = "Deposit undefined to Binance"
    rw [h]
    rfl

/-- Witness for `deposit_missing_asset_defaults_usd` at a concrete deposit. -/
theorem deposit_missing_asset_defaults_usd_witness :
    (parseDepositToRecord
        { amount := "2.5", asset := none, txId := "tx1", insertTime := 3 }).currency
      = "USD" ∧
    (parseDepositToRecord
        { amount := "2.5", asset := none, txId := "tx1", insertTime := 3 }).description
      = "Deposit undefined to Binance" :=
  ⟨(deposit_missing_asset_defaults_usd
      { amount := "2.5", asset := none, txId := "tx1", insertTime := 3 } "BTC" rfl).1,
    (deposit_missing_asset_defaults_usd
      { amount := "2.5", asset := none, txId := "tx1", insertTime := 3 } "BTC" rfl).2.1⟩

end ManageSalaryBot
